import Mathlib

set_option maxRecDepth 100000

/-!
Verification model of the FinanceApp entry ledger (src/App.tsx).

The embedding models the pure core of the component: the save operation
(`handleSave`), the masked amount-input normalization (`handleAmountChange`),
and the monthly aggregation (`filteredEntries` / totals / `averageExpense`).

Modelling conventions:
* JavaScript numbers are modelled by `JsNum`: `nan`, signed infinities, or an
  exact rational (`fin`).  IEEE-754 rounding and signed zero are idealized away;
  all concrete values exercised by the program (integer cents, currency sums)
  are exactly representable, so no rounding occurs on the modelled paths.
* `Number(string)` is modelled by `jsNumber` over the string-numeric-literal
  grammar: whitespace trimming, empty string to 0, optional sign, `Infinity`,
  hex/octal/binary literals (unsigned only), and decimal literals with an
  optional fraction and exponent.
* `Date.parse`/`getMonth`/`getFullYear` on the ISO strings the app produces are
  modelled by `parseIsoYearMonth`, which reads the leading `YYYY-MM` of an
  ISO-like string (month 1..12, local time = UTC assumed); unparseable strings
  compare unequal to every reference month, as `NaN` does in the source.
-/

/-- JavaScript whitespace characters recognized by `String.prototype.trim` and
by `Number` (restricted to the common ASCII set plus NBSP). -/
def isJsWs (c : Char) : Bool :=
  c = ' ' || c = '\t' || c = '\n' || c = '\r' || c = '\x0b' || c = '\x0c' || c = ' '

/-- Model of `String.prototype.trim`. -/
def jsTrim (s : String) : String :=
  ⟨((s.toList.dropWhile isJsWs).reverse.dropWhile isJsWs).reverse⟩

/-- Value of a big-endian list of decimal digit characters. -/
def decVal (l : List Char) : ℕ :=
  l.foldl (fun a c => 10 * a + (c.toNat - 48)) 0

/-- Hexadecimal digit value, `none` for non-hex characters. -/
def hexVal (c : Char) : Option ℕ :=
  if c.isDigit then some (c.toNat - 48)
  else if 'a' ≤ c ∧ c ≤ 'f' then some (c.toNat - 87)
  else if 'A' ≤ c ∧ c ≤ 'F' then some (c.toNat - 55)
  else none

/-- Value of a big-endian digit-character list in base `b`, digits read by `dv`. -/
def baseVal (b : ℕ) (dv : Char → Option ℕ) (l : List Char) : ℕ :=
  l.foldl (fun a c => b * a + (dv c).getD 0) 0

/-- Exponent digits of a decimal literal: nonempty, all decimal digits. -/
def expDigits (l : List Char) : Option ℕ :=
  if l ≠ [] ∧ l.all Char.isDigit then some (decVal l) else none

/-- Parses the optional exponent tail of a decimal literal (must consume the
whole remainder); an absent tail denotes exponent 0. -/
def parseExpTail : List Char → Option ℤ
  | [] => some 0
  | c :: r =>
    if c = 'e' ∨ c = 'E' then
      match r with
      | '+' :: r2 => (expDigits r2).map (fun n => (n : ℤ))
      | '-' :: r2 => (expDigits r2).map (fun n => -(n : ℤ))
      | r2 => (expDigits r2).map (fun n => (n : ℤ))
    else none

/-- Integer power of ten as a rational, for decimal exponents. -/
def pow10 (e : ℤ) : ℚ :=
  if 0 ≤ e then (10 : ℚ) ^ e.toNat else 1 / (10 : ℚ) ^ (-e).toNat

/-- Parses an unsigned JavaScript decimal literal (`digits[.digits][exp]` or
`.digits[exp]`), requiring the whole input to be consumed. -/
def parseDecLit (l : List Char) : Option ℚ :=
  let p := l.span Char.isDigit
  match p.2 with
  | '.' :: r2 =>
    let q := r2.span Char.isDigit
    if p.1 = [] ∧ q.1 = [] then none
    else (parseExpTail q.2).map (fun e =>
      ((decVal p.1 : ℚ) + (decVal q.1 : ℚ) / (10 : ℚ) ^ q.1.length) * pow10 e)
  | _ =>
    if p.1 = [] then none
    else (parseExpTail p.2).map (fun e => (decVal p.1 : ℚ) * pow10 e)

/-- A JavaScript number: NaN, a signed infinity (`inf true` is positive
infinity), or a finite value modelled as an exact rational. -/
inductive JsNum where
  | nan : JsNum
  | inf : Bool → JsNum
  | fin : ℚ → JsNum
deriving DecidableEq

/-- Splits an optional leading sign; returns (negative?, rest). -/
def signSplit : List Char → Bool × List Char
  | '+' :: r => (false, r)
  | '-' :: r => (true, r)
  | r => (false, r)

/-- Model of JavaScript `Number(string)` string-to-number coercion. -/
def jsNumber (s : String) : JsNum :=
  let t := ((s.toList.dropWhile isJsWs).reverse.dropWhile isJsWs).reverse
  match t with
  | [] => .fin 0
  | '0' :: 'x' :: ds =>
    if ds ≠ [] ∧ ds.all (fun c => (hexVal c).isSome) then .fin (baseVal 16 hexVal ds) else .nan
  | '0' :: 'X' :: ds =>
    if ds ≠ [] ∧ ds.all (fun c => (hexVal c).isSome) then .fin (baseVal 16 hexVal ds) else .nan
  | '0' :: 'o' :: ds =>
    if ds ≠ [] ∧ ds.all (fun c => '0' ≤ c ∧ c ≤ '7') then .fin (baseVal 8 hexVal ds) else .nan
  | '0' :: 'O' :: ds =>
    if ds ≠ [] ∧ ds.all (fun c => '0' ≤ c ∧ c ≤ '7') then .fin (baseVal 8 hexVal ds) else .nan
  | '0' :: 'b' :: ds =>
    if ds ≠ [] ∧ ds.all (fun c => c = '0' ∨ c = '1') then .fin (baseVal 2 hexVal ds) else .nan
  | '0' :: 'B' :: ds =>
    if ds ≠ [] ∧ ds.all (fun c => c = '0' ∨ c = '1') then .fin (baseVal 2 hexVal ds) else .nan
  | _ =>
    let sp := signSplit t
    if sp.2 = "Infinity".toList then .inf (!sp.1)
    else
      match parseDecLit sp.2 with
      | some q => .fin (if sp.1 then -q else q)
      | none => .nan

/-- JavaScript `isNaN` on a number value. -/
def isNaNb : JsNum → Bool
  | .nan => true
  | _ => false

/-- JavaScript `<=` comparison on numbers (false whenever either side is NaN). -/
def jsLe : JsNum → JsNum → Bool
  | .nan, _ => false
  | _, .nan => false
  | .inf p, .inf q => !p || q
  | .inf p, .fin _ => !p
  | .fin _, .inf q => q
  | .fin a, .fin b => decide (a ≤ b)

/-- JavaScript `+` on numbers (NaN-absorbing; opposite infinities give NaN). -/
def jsAdd : JsNum → JsNum → JsNum
  | .nan, _ => .nan
  | _, .nan => .nan
  | .inf p, .inf q => if p = q then .inf p else .nan
  | .inf p, .fin _ => .inf p
  | .fin _, .inf q => .inf q
  | .fin a, .fin b => .fin (a + b)

/-- JavaScript unary minus on numbers. -/
def jsNeg : JsNum → JsNum
  | .nan => .nan
  | .inf p => .inf (!p)
  | .fin a => .fin (-a)

/-- JavaScript `-` on numbers. -/
def jsSub (a b : JsNum) : JsNum := jsAdd a (jsNeg b)

/-- JavaScript `/` on numbers (signed zeros idealized: a zero divisor is
treated as `+0`). -/
def jsDiv : JsNum → JsNum → JsNum
  | .nan, _ => .nan
  | _, .nan => .nan
  | .inf _, .inf _ => .nan
  | .inf p, .fin b => .inf (p = decide (0 ≤ b))
  | .fin _, .inf _ => .fin 0
  | .fin a, .fin b =>
    if b = 0 then (if a = 0 then .nan else .inf (decide (0 < a))) else .fin (a / b)

/-- Replaces the first comma with a dot: model of `s.replace(",", ".")` with a
plain-string pattern, which substitutes only the first occurrence. -/
def replaceFirstComma : List Char → List Char
  | [] => []
  | c :: r => if c = ',' then '.' :: r else c :: replaceFirstComma r

/-- Model of `rawAmount.replace(/\./g, "").replace(",", ".")`: every dot is
removed, then the first comma becomes the decimal dot. -/
def canonAmount (s : String) : String :=
  ⟨replaceFirstComma (s.toList.filter (fun c => c ≠ '.'))⟩

/-- The number the save handler parses out of the raw amount field:
`Number(amount.trim().replace(/\./g, "").replace(",", "."))`. -/
def parsedAmount (amtField : String) : JsNum :=
  jsNumber (canonAmount (jsTrim amtField))


/-- A reference date as the component holds it (`currentMonth`): only the
calendar year and month (1..12, ISO numbering) are relevant to the model. -/
structure JsDate where
  year : ℕ
  month : ℕ
deriving DecidableEq

/-- Model of `new Date(s).getFullYear()/getMonth()` for the ISO-like strings
the app stores in `createdAt`: reads the leading `YYYY-MM` (month 1..12);
any other shape behaves as an invalid date (`none`). -/
def parseIsoYearMonth (s : String) : Option (ℕ × ℕ) :=
  match s.toList with
  | y1 :: y2 :: y3 :: y4 :: '-' :: m1 :: m2 :: _ =>
    if y1.isDigit ∧ y2.isDigit ∧ y3.isDigit ∧ y4.isDigit ∧ m1.isDigit ∧ m2.isDigit then
      let m := decVal [m1, m2]
      if 1 ≤ m ∧ m ≤ 12 then some (decVal [y1, y2, y3, y4], m) else none
    else none
  | _ => none

/-- Model of `isSameMonth(new Date(s), ref)` from App.tsx: the stored
`createdAt` string has the same calendar month and year as the reference
date; an unparseable date compares false (as NaN comparisons do). -/
def isSameMonthStr (s : String) (ref : JsDate) : Bool :=
  match parseIsoYearMonth s with
  | some ym => ym.1 == ref.year && ym.2 == ref.month
  | none => false

/-- Entry type: `"income" | "expense"`. -/
inductive EntryType where
  | income : EntryType
  | expense : EntryType
deriving DecidableEq, BEq

/-- The `FinanceEntry` record of App.tsx.  `amount : number` is a `JsNum`;
optional fields are `Option` (absent = `undefined`); `createdAt` keeps the
stored ISO string. -/
structure FinanceEntry where
  id : String
  description : String
  amount : JsNum
  type : EntryType
  category : String
  subcategory : Option String
  paymentMethod : Option String
  receivingMethod : Option String
  createdAt : String
deriving DecidableEq

/-- The fields of `baseData` (`Omit<FinanceEntry, "id">`) built in `handleSave`. -/
structure EntryData where
  description : String
  amount : JsNum
  type : EntryType
  category : String
  subcategory : Option String
  paymentMethod : Option String
  receivingMethod : Option String
  createdAt : String
deriving DecidableEq

/-- The clock oracle: `Date.now()` in milliseconds and the matching
`new Date().toISOString()` rendering, both read at save time. -/
structure Clock where
  ms : ℕ
  iso : String
deriving DecidableEq

/-- The form state consumed by `handleSave`: the raw text fields, the selected
type, and the editing target (`editingId : string | null`). -/
structure FormState where
  description : String
  amount : String
  type : EntryType
  category : String
  subcategory : String
  paymentMethod : String
  receivingMethod : String
  editingId : Option String
deriving DecidableEq

/-- Category resolution in `baseData`:
`category.trim() || (type === "income" ? "Renda extra" : DEFAULT_EXPENSE_CATEGORY)`. -/
def resolvedCategory (form : FormState) : String :=
  if jsTrim form.category ≠ "" then jsTrim form.category
  else match form.type with
    | .income => "Renda extra"
    | .expense => "Alimentação"

/-- Subcategory resolution in `baseData`: `subcategory.trim() || undefined`. -/
def resolvedSubcategory (form : FormState) : Option String :=
  if jsTrim form.subcategory = "" then none else some (jsTrim form.subcategory)

/-- Payment-method resolution in `baseData`:
`type === "expense" ? paymentMethod || undefined : undefined`. -/
def resolvedPaymentMethod (form : FormState) : Option String :=
  match form.type with
  | .expense => if form.paymentMethod = "" then none else some form.paymentMethod
  | .income => none

/-- Receiving-method resolution in `baseData`:
`type === "income" ? receivingMethod || undefined : undefined`. -/
def resolvedReceivingMethod (form : FormState) : Option String :=
  match form.type with
  | .income => if form.receivingMethod = "" then none else some form.receivingMethod
  | .expense => none

/-- The `baseData` object built by `handleSave` once validation has passed. -/
def mkBaseData (clk : Clock) (form : FormState) (value : JsNum) : EntryData :=
  { description := jsTrim form.description
    amount := value
    type := form.type
    category := resolvedCategory form
    subcategory := resolvedSubcategory form
    paymentMethod := resolvedPaymentMethod form
    receivingMethod := resolvedReceivingMethod form
    createdAt := clk.iso }

/-- Attaches an id to `baseData`, as in `{ id: String(Date.now()), ...baseData }`. -/
def withId (id : String) (b : EntryData) : FinanceEntry :=
  { id := id
    description := b.description
    amount := b.amount
    type := b.type
    category := b.category
    subcategory := b.subcategory
    paymentMethod := b.paymentMethod
    receivingMethod := b.receivingMethod
    createdAt := b.createdAt }

/-- The edit-branch merge `{ ...entry, ...baseData, createdAt: entry.createdAt
|| baseData.createdAt }`: every field but `id` comes from `baseData`, except
that a truthy (non-empty) original `createdAt` is kept. -/
def applyEdit (e : FinanceEntry) (b : EntryData) : FinanceEntry :=
  { withId e.id b with
    createdAt := if e.createdAt ≠ "" then e.createdAt else b.createdAt }

/-- The observable outcome of `handleSave`: the next `entries` state and the
`errorMessage` state it sets. -/
structure SaveResult where
  entries : List FinanceEntry
  errorMessage : Option String
deriving DecidableEq

/-- Model of `handleSave` from App.tsx: trims the fields, runs the sequential
validation with early returns, then either maps the sequence (truthy
`editingId`) or prepends a new entry with id `String(Date.now())`. -/
def handleSave (clk : Clock) (form : FormState) (entries : List FinanceEntry) :
    SaveResult :=
  let desc := jsTrim form.description
  let rawAmount := jsTrim form.amount
  if desc = "" then { entries := entries, errorMessage := some "Descrição obrigatória" }
  else if rawAmount = "" then { entries := entries, errorMessage := some "Informe um valor" }
  else
    let value := jsNumber (canonAmount rawAmount)
    if isNaNb value || jsLe value (JsNum.fin 0) then
      { entries := entries, errorMessage := some "Informe um valor maior que zero" }
    else
      let b := mkBaseData clk form value
      match form.editingId with
      | some tid =>
        if tid = "" then
          { entries := withId (toString clk.ms) b :: entries, errorMessage := none }
        else
          { entries := entries.map (fun e => if e.id = tid then applyEdit e b else e)
            errorMessage := none }
      | none =>
        { entries := withId (toString clk.ms) b :: entries, errorMessage := none }

/-- Model of `filteredEntries`: the entries whose `createdAt` falls in the
same calendar month and year as the reference month. -/
def filteredEntries (entries : List FinanceEntry) (ref : JsDate) : List FinanceEntry :=
  entries.filter (fun e => isSameMonthStr e.createdAt ref)

/-- Model of `incomes`: the filtered entries of type income. -/
def incomesOf (entries : List FinanceEntry) (ref : JsDate) : List FinanceEntry :=
  (filteredEntries entries ref).filter (fun e => e.type == EntryType.income)

/-- Model of `expenses`: the filtered entries of type expense. -/
def expensesOf (entries : List FinanceEntry) (ref : JsDate) : List FinanceEntry :=
  (filteredEntries entries ref).filter (fun e => e.type == EntryType.expense)

/-- Model of `totalIncome`: `incomes.reduce((sum, e) => sum + e.amount, 0)`. -/
def totalIncome (entries : List FinanceEntry) (ref : JsDate) : JsNum :=
  (incomesOf entries ref).foldl (fun s e => jsAdd s e.amount) (JsNum.fin 0)

/-- Model of `totalExpense`: `expenses.reduce((sum, e) => sum + e.amount, 0)`. -/
def totalExpense (entries : List FinanceEntry) (ref : JsDate) : JsNum :=
  (expensesOf entries ref).foldl (fun s e => jsAdd s e.amount) (JsNum.fin 0)

/-- Model of `balance`: `totalIncome - totalExpense`. -/
def balanceOf (entries : List FinanceEntry) (ref : JsDate) : JsNum :=
  jsSub (totalIncome entries ref) (totalExpense entries ref)

/-- Model of `averageExpense`:
`expenses.length === 0 ? 0 : totalExpense / expenses.length`. -/
def averageExpense (entries : List FinanceEntry) (ref : JsDate) : JsNum :=
  if (expensesOf entries ref).length = 0 then JsNum.fin 0
  else jsDiv (totalExpense entries ref) (JsNum.fin ((expensesOf entries ref).length : ℚ))

/-- The character of a decimal digit (defined by cases so that facts about it
are provable by case analysis). -/
def digitChar : ℕ → Char
  | 0 => '0' | 1 => '1' | 2 => '2' | 3 => '3' | 4 => '4'
  | 5 => '5' | 6 => '6' | 7 => '7' | 8 => '8' | _ => '9'

/-- Little-endian decimal digits of `n`, written with explicit fuel so that it
reduces by iota (agrees with `Nat.digits 10` when the fuel suffices). -/
def toDigitsRev : ℕ → ℕ → List ℕ
  | 0, _ => []
  | fuel + 1, n => if n = 0 then [] else n % 10 :: toDigitsRev fuel (n / 10)

/-- Big-endian decimal digit characters of a natural number (zero renders as
the single character `0`, as JavaScript number formatting does). -/
def natLit (n : ℕ) : List Char :=
  if n = 0 then ['0'] else ((toDigitsRev n n).map digitChar).reverse

/-- Inserts the pt-BR thousands separator every three characters, working on a
little-endian (reversed) digit list. -/
def groupRevAux : List Char → List Char
  | a :: b :: c :: d :: rest => a :: b :: c :: '.' :: groupRevAux (d :: rest)
  | l => l

/-- Groups a big-endian digit list with the pt-BR thousands separator `.`
(every three digits from the right). -/
def groupThousands (l : List Char) : List Char :=
  (groupRevAux l.reverse).reverse

/-- Renders a cents count as `toLocaleString("pt-BR", { minimumFractionDigits:
2, maximumFractionDigits: 2 })` renders `cents / 100`: grouped integer part,
decimal comma, exactly two fraction digits. -/
def formatCentsBR (cents : ℕ) : List Char :=
  groupThousands (natLit (cents / 100)) ++
    ',' :: [digitChar (cents / 10 % 10), digitChar (cents % 10)]

/-- Model of `numeric.toLocaleString("pt-BR", { minimumFractionDigits: 2,
maximumFractionDigits: 2 })` for the nonnegative values the handler produces
(exact multiples of 1/100, so no rounding occurs). -/
def toLocaleStringBR2 (q : ℚ) : String :=
  ⟨formatCentsBR (⌊q * 100⌋.toNat)⟩

/-- Model of the amount `handleAmountChange` stores: strips every non-digit
(`raw.replace(/\D/g, "")`), keeps `""` empty, otherwise reads the digits as
integer cents (`parseInt(digits, 10)`, exact in the model), divides by 100 and
locale-formats the result. -/
def handleAmountValue (raw : String) : String :=
  let digits := raw.toList.filter Char.isDigit
  if digits = [] then ""
  else toLocaleStringBR2 ((decVal digits : ℚ) / 100)

/-- Modelled from the spec (§4.1 amount-input normalization): `normalize(raw)
= formatDecimal(parseDigits(raw) / 100)` with `""` mapping to `""` — the digit
stream is read as integer cents and reformatted as a locale decimal string
with exactly two fraction digits. -/
def normalizeSpecModel (raw : String) : String :=
  let digits := raw.toList.filter Char.isDigit
  if digits = [] then ""
  else ⟨formatCentsBR (decVal digits)⟩


/-! Helper lemmas about the decimal rendering used by the masked input. -/

theorem toDigitsRev_eq_digits (fuel : ℕ) : ∀ n : ℕ, n ≤ fuel →
    toDigitsRev fuel n = Nat.digits 10 n := by
  induction fuel with
  | zero =>
    intro n hn
    interval_cases n
    simp [toDigitsRev]
  | succ f ih =>
    intro n hn
    by_cases h0 : n = 0
    · simp [toDigitsRev, h0]
    · have hdiv : n / 10 ≤ f := by
        have := Nat.div_lt_self (Nat.pos_of_ne_zero h0) (by norm_num : 1 < 10)
        omega
      rw [toDigitsRev, if_neg h0, ih (n / 10) hdiv,
        Nat.digits_def' (by norm_num : 1 < 10) (Nat.pos_of_ne_zero h0)]

theorem digitChar_toNat (d : ℕ) (h : d < 10) : (digitChar d).toNat - 48 = d := by
  interval_cases d <;> rfl

theorem digitChar_isDigit (d : ℕ) (h : d < 10) : (digitChar d).isDigit = true := by
  interval_cases d <;> rfl

theorem decVal_shift (B : List Char) : ∀ x : ℕ,
    B.foldl (fun a c => 10 * a + (c.toNat - 48)) x =
      x * 10 ^ B.length + decVal B := by
  induction B with
  | nil => intro x; simp [decVal]
  | cons c r ih =>
    intro x
    simp only [List.foldl_cons, List.length_cons, decVal] at *
    rw [ih (10 * x + (c.toNat - 48)), ih (10 * 0 + (c.toNat - 48))]
    ring

theorem decVal_append (A B : List Char) :
    decVal (A ++ B) = decVal A * 10 ^ B.length + decVal B := by
  unfold decVal
  rw [List.foldl_append, decVal_shift]
  rfl

theorem decVal_revMap (L : List ℕ) (h : ∀ d ∈ L, d < 10) :
    decVal ((L.map digitChar).reverse) = Nat.ofDigits 10 L := by
  induction L with
  | nil => simp [decVal, Nat.ofDigits]
  | cons d R ih =>
    have hd : d < 10 := h d (List.mem_cons_self d R)
    have hR : ∀ x ∈ R, x < 10 := fun x hx => h x (List.mem_cons_of_mem d hx)
    simp only [List.map_cons, List.reverse_cons]
    rw [decVal_append, ih hR, Nat.ofDigits_cons]
    have hsingle : decVal [digitChar d] = d := by
      simp [decVal, digitChar_toNat d hd]
    rw [hsingle]
    simp
    try ring

theorem decVal_natLit (n : ℕ) : decVal (natLit n) = n := by
  by_cases h0 : n = 0
  · simp [natLit, h0, decVal]
  · rw [natLit, if_neg h0, toDigitsRev_eq_digits n n le_rfl,
      decVal_revMap (Nat.digits 10 n)
        (fun d hd => Nat.digits_lt_base (by norm_num) hd),
      Nat.ofDigits_digits]

theorem natLit_all_digit (n : ℕ) : ∀ c ∈ natLit n, c.isDigit = true := by
  by_cases h0 : n = 0
  · simp [natLit, h0]
  · rw [natLit, if_neg h0, toDigitsRev_eq_digits n n le_rfl]
    intro c hc
    rw [List.mem_reverse, List.mem_map] at hc
    obtain ⟨d, hd, rfl⟩ := hc
    exact digitChar_isDigit d (Nat.digits_lt_base (by norm_num) hd)

theorem groupRevAux_filter : ∀ l : List Char, (∀ c ∈ l, c.isDigit = true) →
    (groupRevAux l).filter Char.isDigit = l
  | [], _ => rfl
  | [a], h => by simp [groupRevAux, List.filter, h a (by simp)]
  | [a, b], h => by
    simp [groupRevAux, List.filter, h a (by simp), h b (by simp)]
  | [a, b, c], h => by
    simp [groupRevAux, List.filter, h a (by simp), h b (by simp), h c (by simp)]
  | a :: b :: c :: d :: rest, h => by
    have hrec := groupRevAux_filter (d :: rest) (fun x hx =>
      h x (List.mem_cons_of_mem a (List.mem_cons_of_mem b (List.mem_cons_of_mem c hx))))
    simp only [groupRevAux, List.filter]
    rw [h a (by simp), h b (by simp), h c (by simp)]
    simp only [show ('.' : Char).isDigit = false from rfl]
    rw [hrec]

theorem groupThousands_filter (l : List Char) (h : ∀ c ∈ l, c.isDigit = true) :
    (groupThousands l).filter Char.isDigit = l := by
  rw [groupThousands, List.filter_reverse,
    groupRevAux_filter l.reverse (fun c hc => h c (List.mem_reverse.mp hc)),
    List.reverse_reverse]

theorem filter_formatCentsBR (n : ℕ) :
    (formatCentsBR n).filter Char.isDigit =
      natLit (n / 100) ++ [digitChar (n / 10 % 10), digitChar (n % 10)] := by
  rw [formatCentsBR, List.filter_append,
    groupThousands_filter (natLit (n / 100)) (natLit_all_digit (n / 100))]
  have h1 : (digitChar (n / 10 % 10)).isDigit = true :=
    digitChar_isDigit _ (Nat.mod_lt _ (by norm_num))
  have h2 : (digitChar (n % 10)).isDigit = true :=
    digitChar_isDigit _ (Nat.mod_lt _ (by norm_num))
  simp [List.filter, h1, h2, show (',' : Char).isDigit = false from rfl]

theorem decVal_filter_formatCentsBR (n : ℕ) :
    decVal ((formatCentsBR n).filter Char.isDigit) = n := by
  rw [filter_formatCentsBR, decVal_append, decVal_natLit]
  have h1 : n / 10 % 10 < 10 := Nat.mod_lt _ (by norm_num)
  have h2 : n % 10 < 10 := Nat.mod_lt _ (by norm_num)
  have : decVal [digitChar (n / 10 % 10), digitChar (n % 10)] =
      10 * (n / 10 % 10) + n % 10 := by
    simp [decVal, digitChar_toNat _ h1, digitChar_toNat _ h2]
  rw [this]
  simp only [List.length_cons, List.length_nil]
  omega

theorem formatCentsBR_filter_ne_nil (n : ℕ) :
    (formatCentsBR n).filter Char.isDigit ≠ [] := by
  rw [filter_formatCentsBR]
  simp

theorem toLocaleStringBR2_natCents (n : ℕ) :
    toLocaleStringBR2 ((n : ℚ) / 100) = ⟨formatCentsBR n⟩ := by
  rw [toLocaleStringBR2]
  have h : ((n : ℚ) / 100) * 100 = (n : ℚ) := by
    field_simp
  rw [h, Int.floor_natCast, Int.toNat_natCast]

/-- C8: the masked amount normalization strips all non-digit characters, reads
the remaining digit string as integer cents divided by 100, and reformats it as
a pt-BR decimal string with exactly two fraction digits; the empty digit stream
maps to the empty string, and input "850000" yields "8.500,00". -/
theorem masked_normalization_matches_spec :
    (∀ raw : String, handleAmountValue raw = normalizeSpecModel raw) ∧
    handleAmountValue "850000" = "8.500,00" ∧
    handleAmountValue "" = "" := by
  refine ⟨fun raw => ?_, by with_unfolding_all rfl, rfl⟩
  simp only [handleAmountValue, normalizeSpecModel]
  by_cases h : raw.toList.filter Char.isDigit = []
  · rw [if_pos h, if_pos h]
  · rw [if_neg h, if_neg h, toLocaleStringBR2_natCents]

/-- C10: the masked amount normalization is idempotent: renormalizing its own
output returns the same string, because the locale formatting preserves the
digit content of the canonical result. -/
theorem masked_normalization_idempotent (raw : String) :
    handleAmountValue (handleAmountValue raw) = handleAmountValue raw := by
  by_cases h : raw.toList.filter Char.isDigit = []
  · have h1 : handleAmountValue raw = "" := by
      simp only [handleAmountValue]
      rw [if_pos h]
    rw [h1]
    rfl
  · have h1 : handleAmountValue raw =
        ⟨formatCentsBR (decVal (raw.toList.filter Char.isDigit))⟩ := by
      simp only [handleAmountValue]
      rw [if_neg h, toLocaleStringBR2_natCents]
    rw [h1]
    simp only [handleAmountValue]
    have htl : (⟨formatCentsBR (decVal (raw.toList.filter Char.isDigit))⟩ : String).toList =
        formatCentsBR (decVal (raw.toList.filter Char.isDigit)) := rfl
    rw [htl, if_neg (formatCentsBR_filter_ne_nil (decVal (raw.toList.filter Char.isDigit))),
      decVal_filter_formatCentsBR, toLocaleStringBR2_natCents]

/-- C1: for every entry sequence and reference month, the aggregate ranges over
exactly the entries whose `createdAt` has the same calendar month and year as
the reference month; `totalIncome` and `totalExpense` are the sums of the
amounts of the income resp. expense entries among them, `balance` is their
difference, and `averageExpense` is `totalExpense` divided by the number of
expense entries when that count is positive and `0` otherwise. -/
theorem aggregate_totals_and_average (entries : List FinanceEntry) (ref : JsDate) :
    totalIncome entries ref =
      ((entries.filter (fun e => isSameMonthStr e.createdAt ref &&
        e.type == EntryType.income)).map (fun e => e.amount)).foldl jsAdd (JsNum.fin 0) ∧
    totalExpense entries ref =
      ((entries.filter (fun e => isSameMonthStr e.createdAt ref &&
        e.type == EntryType.expense)).map (fun e => e.amount)).foldl jsAdd (JsNum.fin 0) ∧
    balanceOf entries ref = jsSub (totalIncome entries ref) (totalExpense entries ref) ∧
    ((expensesOf entries ref).length ≠ 0 →
      averageExpense entries ref =
        jsDiv (totalExpense entries ref) (JsNum.fin ((expensesOf entries ref).length : ℚ))) ∧
    ((expensesOf entries ref).length = 0 → averageExpense entries ref = JsNum.fin 0)

  := by
  refine ⟨?_, ?_, rfl, fun h => ?_, fun h => ?_⟩
  · rw [totalIncome, incomesOf, filteredEntries, List.filter_filter, List.foldl_map]
    congr 1
    exact List.filter_congr (fun a _ => Bool.and_comm _ _)
  · rw [totalExpense, expensesOf, filteredEntries, List.filter_filter, List.foldl_map]
    congr 1
    exact List.filter_congr (fun a _ => Bool.and_comm _ _)
  · rw [averageExpense, if_neg h]
  · rw [averageExpense, if_pos h]

/-- Witness for the aggregate theorem: on the empty ledger the expense count is
zero and the average expense is 0. -/
theorem aggregate_totals_and_average_witness :
    averageExpense [] ⟨2025, 10⟩ = JsNum.fin 0 :=
  (aggregate_totals_and_average [] ⟨2025, 10⟩).2.2.2.2 rfl

/-- The clock at which the Salário entry of the concrete scenario is created. -/
def clockSalario : Clock := ⟨1759900000000, "2025-10-08T09:00:00.000Z"⟩

/-- The clock at which the Aluguel entry of the concrete scenario is created. -/
def clockAluguel : Clock := ⟨1759900060000, "2025-10-08T09:01:00.000Z"⟩

/-- The form input adding Salário, 8500,00, income. -/
def formSalario : FormState :=
  ⟨"Salário", "8500,00", .income, "Salário fixo", "", "", "Pix", none⟩

/-- The form input adding Aluguel, 2200,00, expense. -/
def formAluguel : FormState :=
  ⟨"Aluguel", "2200,00", .expense, "Moradia", "Aluguel", "Pix", "", none⟩

/-- The ledger obtained from the empty sequence by the two adds of the
concrete scenario. -/
def scenarioEntries : List FinanceEntry :=
  (handleSave clockAluguel formAluguel
    (handleSave clockSalario formSalario []).entries).entries

/-- The scenario reference month (October 2025, the entries' month). -/
def refScenario : JsDate := ⟨2025, 10⟩

/-- C7: starting from the empty sequence, adding Salário 8500,00 (income) and
Aluguel 2200,00 (expense) in the same month and aggregating over that month
yields totalIncome 8500, totalExpense 2200, balance 6300, averageExpense 2200. -/
theorem scenario_salario_aluguel_aggregate :
    totalIncome scenarioEntries refScenario = JsNum.fin 8500 ∧
    totalExpense scenarioEntries refScenario = JsNum.fin 2200 ∧
    balanceOf scenarioEntries refScenario = JsNum.fin 6300 ∧
    averageExpense scenarioEntries refScenario = JsNum.fin 2200 := by
  refine ⟨?_, ?_, ?_, ?_⟩ <;> with_unfolding_all rfl

/-! Claims about the save operation. -/

/-- C2 (amended): validation runs in the fixed order (1) trimmed description
non-empty, (2) trimmed amount non-empty, (3) the parsed amount must not be NaN
and must be positive, short-circuiting on the first failing rule; the failing
rules map to three pairwise distinct error kinds — a non-numeric amount and a
non-positive amount are collapsed into the single combined third kind. -/
theorem validation_order_and_kinds (clk : Clock) (form : FormState)
    (entries : List FinanceEntry) :
    (jsTrim form.description = "" →
      handleSave clk form entries = ⟨entries, some "Descrição obrigatória"⟩) ∧
    (jsTrim form.description ≠ "" → jsTrim form.amount = "" →
      handleSave clk form entries = ⟨entries, some "Informe um valor"⟩) ∧
    (jsTrim form.description ≠ "" → jsTrim form.amount ≠ "" →
      (isNaNb (parsedAmount form.amount) ||
        jsLe (parsedAmount form.amount) (JsNum.fin 0)) = true →
      handleSave clk form entries = ⟨entries, some "Informe um valor maior que zero"⟩) ∧
    (jsTrim form.description ≠ "" → jsTrim form.amount ≠ "" →
      (isNaNb (parsedAmount form.amount) ||
        jsLe (parsedAmount form.amount) (JsNum.fin 0)) = false →
      (handleSave clk form entries).errorMessage = none) ∧
    (("Descrição obrigatória" : String) ≠ "Informe um valor" ∧
      ("Descrição obrigatória" : String) ≠ "Informe um valor maior que zero" ∧
      ("Informe um valor" : String) ≠ "Informe um valor maior que zero") := by
  refine ⟨fun h1 => ?_, fun h1 h2 => ?_, fun h1 h2 h3 => ?_, fun h1 h2 h3 => ?_, by decide⟩
  · simp [handleSave, h1]
  · simp [handleSave, h1, h2]
  · simp only [parsedAmount] at h3
    simp [handleSave, h1, h2, h3]
  · simp only [parsedAmount] at h3
    simp only [handleSave, h1, h2, h3]
    simp only [if_neg h1, if_neg h2, Bool.false_eq_true, if_false]
    cases form.editingId with
    | none => rfl
    | some tid =>
      by_cases htid : tid = "" <;> simp [htid]

/-- The clock used by the validation counterexample. -/
def clkIndist : Clock := ⟨1700000000000, "2023-11-14T22:13:20.000Z"⟩

/-- A form whose amount field is the non-numeric string "abc". -/
def formAbcAmount : FormState :=
  ⟨"Uber", "abc", .expense, "Transporte", "", "", "", none⟩

/-- A form whose amount field is the zero string "0". -/
def formZeroAmount : FormState :=
  ⟨"Uber", "0", .expense, "Transporte", "", "", "", none⟩

/-- C2 counterexample: a non-numeric amount ("abc") and a zero amount ("0")
produce the exact same observable outcome — the same single error message and
an unchanged sequence — so InvalidAmount and NonPositiveAmount are not
distinguishable results in this code. -/
theorem invalid_and_nonpositive_indistinguishable :
    handleSave clkIndist formAbcAmount [] = handleSave clkIndist formZeroAmount [] ∧
    (handleSave clkIndist formAbcAmount []).errorMessage =
      some "Informe um valor maior que zero" := by
  constructor <;> with_unfolding_all rfl

/-- Witness for the validation-order theorem: with a non-empty description and
a whitespace-only amount, the save reports the missing-amount error and leaves
the (empty) sequence unchanged. -/
theorem validation_order_and_kinds_witness :
    handleSave clkIndist ⟨"Uber", " ", .expense, "Transporte", "", "", "", none⟩ [] =
      ⟨[], some "Informe um valor"⟩ :=
  (validation_order_and_kinds clkIndist
      ⟨"Uber", " ", .expense, "Transporte", "", "", "", none⟩ []).2.1
    (by decide) (by decide)

/-- C3: each of the four failing validation rules — empty trimmed description,
empty trimmed amount, non-numeric amount (parses to NaN), and non-positive
parsed amount — makes the save return its corresponding error kind with the
entry sequence exactly unchanged. -/
theorem invalid_input_leaves_sequence_unchanged (clk : Clock) (form : FormState)
    (entries : List FinanceEntry) :
    (jsTrim form.description = "" →
      handleSave clk form entries = ⟨entries, some "Descrição obrigatória"⟩) ∧
    (jsTrim form.description ≠ "" → jsTrim form.amount = "" →
      handleSave clk form entries = ⟨entries, some "Informe um valor"⟩) ∧
    (jsTrim form.description ≠ "" → jsTrim form.amount ≠ "" →
      parsedAmount form.amount = JsNum.nan →
      handleSave clk form entries = ⟨entries, some "Informe um valor maior que zero"⟩) ∧
    (∀ v : ℚ, jsTrim form.description ≠ "" → jsTrim form.amount ≠ "" →
      parsedAmount form.amount = JsNum.fin v → v ≤ 0 →
      handleSave clk form entries = ⟨entries, some "Informe um valor maior que zero"⟩) := by
  refine ⟨fun h1 => ?_, fun h1 h2 => ?_, fun h1 h2 h3 => ?_, fun v h1 h2 h3 h4 => ?_⟩
  · simp [handleSave, h1]
  · simp [handleSave, h1, h2]
  · simp only [parsedAmount] at h3
    simp [handleSave, h1, h2, h3, isNaNb]
  · simp only [parsedAmount] at h3
    simp [handleSave, h1, h2, h3, isNaNb, jsLe, h4]

/-- Witness for the invalid-input theorem: an all-whitespace description is
rejected with the missing-description error and an unchanged sequence. -/
theorem invalid_input_leaves_sequence_unchanged_witness :
    handleSave clkIndist ⟨"  ", "100", .expense, "Transporte", "", "", "", none⟩ [] =
      ⟨[], some "Descrição obrigatória"⟩ :=
  (invalid_input_leaves_sequence_unchanged clkIndist
      ⟨"  ", "100", .expense, "Transporte", "", "", "", none⟩ []).1 (by decide)

/-- On a successful validation (non-empty trimmed description, amount parsing
to a positive finite value), the save takes the edit branch on a truthy
`editingId` and the add branch otherwise, clearing the error message. -/
theorem handleSave_success_shape (clk : Clock) (form : FormState)
    (entries : List FinanceEntry) (v : ℚ)
    (hdesc : jsTrim form.description ≠ "")
    (hval : parsedAmount form.amount = JsNum.fin v) (hpos : 0 < v) :
    handleSave clk form entries =
      (match form.editingId with
       | some tid =>
         if tid = "" then
           ⟨withId (toString clk.ms) (mkBaseData clk form (JsNum.fin v)) :: entries, none⟩
         else
           ⟨entries.map (fun e =>
              if e.id = tid then applyEdit e (mkBaseData clk form (JsNum.fin v)) else e),
            none⟩
       | none =>
         ⟨withId (toString clk.ms) (mkBaseData clk form (JsNum.fin v)) :: entries, none⟩) := by
  simp only [parsedAmount] at hval
  have hamt : jsTrim form.amount ≠ "" := by
    intro h
    rw [h] at hval
    have h0 : JsNum.fin (0 : ℚ) = JsNum.fin v := by
      rw [← hval]
      rfl
    injection h0 with h00
    rw [← h00] at hpos
    exact lt_irrefl 0 hpos
  have hcond : (isNaNb (JsNum.fin v) || jsLe (JsNum.fin v) (JsNum.fin 0)) = false := by
    simp only [isNaNb, jsLe, Bool.false_or, decide_eq_false_iff_not, not_le]
    exact hpos
  simp only [handleSave, hval]
  rw [if_neg hdesc, if_neg hamt, if_neg (by rw [hcond]; exact Bool.false_ne_true)]

/-- C4 (amended): for every valid input applied in create mode, save prepends a
new entry whose amount is the parsed value and whose tail is the old sequence
unchanged; the new id is the decimal rendering of the creation timestamp, and
it is distinct from every pre-existing id provided no pre-existing entry
already carries that timestamp string (ids come from the millisecond clock, so
this freshness is a hypothesis, not a guarantee of the code). -/
theorem add_prepends_fresh_entry (clk : Clock) (form : FormState)
    (entries : List FinanceEntry) (v : ℚ)
    (hedit : form.editingId = none)
    (hdesc : jsTrim form.description ≠ "")
    (hval : parsedAmount form.amount = JsNum.fin v) (hpos : 0 < v)
    (hfresh : toString clk.ms ∉ entries.map (fun e => e.id)) :
    handleSave clk form entries =
      ⟨withId (toString clk.ms) (mkBaseData clk form (JsNum.fin v)) :: entries, none⟩ ∧
    (withId (toString clk.ms) (mkBaseData clk form (JsNum.fin v))).amount = JsNum.fin v ∧
    (withId (toString clk.ms) (mkBaseData clk form (JsNum.fin v))).id ∉
      entries.map (fun e => e.id) := by
  refine ⟨?_, rfl, hfresh⟩
  rw [handleSave_success_shape clk form entries v hdesc hval hpos, hedit]

/-- A pre-existing entry whose id happens to be the string "1000". -/
def entryIdCollide : FinanceEntry :=
  ⟨"1000", "Antiga", JsNum.fin 5, .expense, "Moradia", none, none, none,
    "2025-09-01T00:00:00.000Z"⟩

/-- A clock whose millisecond reading is 1000, colliding with `entryIdCollide`. -/
def clkCollide : Clock := ⟨1000, "2025-10-08T00:00:00.000Z"⟩

/-- A valid create-mode form input. -/
def formCollide : FormState :=
  ⟨"Uber", "10,00", .expense, "Transporte", "", "", "", none⟩

/-- C4 counterexample: adding a valid entry over a sequence that already
contains an entry with id "1000" while the clock reads 1000 produces a head
entry whose id equals the pre-existing id — the new id is not distinct from
every pre-existing entry's id. -/
theorem add_can_duplicate_existing_id :
    (handleSave clkCollide formCollide [entryIdCollide]).entries.map (fun e => e.id) =
      ["1000", "1000"] ∧
    (handleSave clkCollide formCollide [entryIdCollide]).errorMessage = none := by
  constructor <;> with_unfolding_all rfl

/-- A clock whose millisecond reading does not collide with any entry id. -/
def clkFresh : Clock := ⟨4242, "2025-10-10T00:00:00.000Z"⟩

/-- Witness for the add theorem: at a non-colliding clock, the valid input is
prepended over `[entryIdCollide]` with the parsed amount and a fresh id. -/
theorem add_prepends_fresh_entry_witness :
    handleSave clkFresh formCollide [entryIdCollide] =
      ⟨withId (toString clkFresh.ms) (mkBaseData clkFresh formCollide (JsNum.fin 10)) ::
        [entryIdCollide], none⟩ ∧
    (withId (toString clkFresh.ms) (mkBaseData clkFresh formCollide (JsNum.fin 10))).amount =
      JsNum.fin 10 ∧
    (withId (toString clkFresh.ms) (mkBaseData clkFresh formCollide (JsNum.fin 10))).id ∉
      [entryIdCollide].map (fun e => e.id) :=
  add_prepends_fresh_entry clkFresh formCollide [entryIdCollide] 10 rfl
    (by decide) (by with_unfolding_all rfl) (by norm_num) (by decide)

/-- C5 (amended): for every valid input in edit mode, save maps over the
sequence: every entry whose id differs from the edited id is unchanged, and
every entry carrying the edited id keeps its id, keeps its original
`createdAt` whenever that is non-empty (an empty `createdAt` is replaced by
the current timestamp), and has all remaining fields overwritten from the
resolved input. -/
theorem edit_overwrites_matching_entry (clk : Clock) (form : FormState)
    (entries : List FinanceEntry) (tid : String) (v : ℚ)
    (hedit : form.editingId = some tid) (htid : tid ≠ "")
    (hdesc : jsTrim form.description ≠ "")
    (hval : parsedAmount form.amount = JsNum.fin v) (hpos : 0 < v) :
    (handleSave clk form entries).errorMessage = none ∧
    (handleSave clk form entries).entries.length = entries.length ∧
    ∀ (i : ℕ) (hi : i < entries.length),
      ((entries.get ⟨i, hi⟩).id ≠ tid →
        (handleSave clk form entries).entries[i]? = some (entries.get ⟨i, hi⟩)) ∧
      ((entries.get ⟨i, hi⟩).id = tid →
        (handleSave clk form entries).entries[i]? = some
          { id := (entries.get ⟨i, hi⟩).id
            description := jsTrim form.description
            amount := JsNum.fin v
            type := form.type
            category := resolvedCategory form
            subcategory := resolvedSubcategory form
            paymentMethod := resolvedPaymentMethod form
            receivingMethod := resolvedReceivingMethod form
            createdAt := if (entries.get ⟨i, hi⟩).createdAt ≠ "" then
              (entries.get ⟨i, hi⟩).createdAt else clk.iso }) := by
  have hres : handleSave clk form entries =
      ⟨entries.map (fun e =>
          if e.id = tid then applyEdit e (mkBaseData clk form (JsNum.fin v)) else e),
        none⟩ := by
    rw [handleSave_success_shape clk form entries v hdesc hval hpos, hedit]
    exact if_neg htid
  refine ⟨by rw [hres], by rw [hres]; exact List.length_map _ _,
    fun i hi => ⟨fun hne => ?_, fun heq => ?_⟩⟩
  · rw [hres]
    simp only [List.getElem?_map]
    rw [List.getElem?_eq_getElem hi]
    simp only [Option.map_some']
    simp only [List.get_eq_getElem] at hne ⊢
    rw [if_neg hne]
  · rw [hres]
    simp only [List.getElem?_map]
    rw [List.getElem?_eq_getElem hi]
    simp only [Option.map_some']
    simp only [List.get_eq_getElem] at heq ⊢
    rw [if_pos heq]
    rfl

/-- An entry whose stored `createdAt` is the empty string. -/
def entryEmptyCreatedAt : FinanceEntry :=
  ⟨"7", "Velho", JsNum.fin 3, .expense, "Moradia", none, none, none, ""⟩

/-- The clock at which the empty-createdAt entry is edited. -/
def clkEditEmpty : Clock := ⟨2000, "2025-10-09T00:00:00.000Z"⟩

/-- A valid edit-mode form input targeting id "7". -/
def formEditEmpty : FormState :=
  ⟨"Novo", "1,00", .expense, "Moradia", "", "", "", some "7"⟩

/-- C5 counterexample: updating the entry whose stored `createdAt` is the
empty string does not preserve its original `createdAt` — the falsy value is
replaced by the save-time timestamp. -/
theorem edit_replaces_empty_createdAt :
    (handleSave clkEditEmpty formEditEmpty [entryEmptyCreatedAt]).entries.map
      (fun e => e.createdAt) = ["2025-10-09T00:00:00.000Z"] ∧
    entryEmptyCreatedAt.createdAt = "" := by
  constructor <;> with_unfolding_all rfl

/-- An untouched expense entry used by the edit witness. -/
def entryKeepA : FinanceEntry :=
  ⟨"id1", "Mercado", JsNum.fin 50, .expense, "Alimentação", none, none, none,
    "2025-09-02T00:00:00.000Z"⟩

/-- The edited expense entry used by the edit witness. -/
def entryKeepB : FinanceEntry :=
  ⟨"id2", "Farmácia", JsNum.fin 30, .expense, "Saúde", none, none, none,
    "2025-09-03T00:00:00.000Z"⟩

/-- The clock of the edit witness. -/
def clkEditKeep : Clock := ⟨5000, "2025-10-11T00:00:00.000Z"⟩

/-- A valid edit-mode form input targeting id "id2". -/
def formEditKeep : FormState :=
  ⟨"Farmácia X", "45,00", .expense, "Saúde", "", "Pix", "", some "id2"⟩

/-- Witness for the edit theorem: position 1 of the updated sequence keeps its
id and createdAt and takes the remaining fields from the input. -/
theorem edit_overwrites_matching_entry_witness :
    (handleSave clkEditKeep formEditKeep [entryKeepA, entryKeepB]).entries[1]? =
      some
        { id := ([entryKeepA, entryKeepB].get ⟨1, by decide⟩).id
          description := jsTrim formEditKeep.description
          amount := JsNum.fin 45
          type := formEditKeep.type
          category := resolvedCategory formEditKeep
          subcategory := resolvedSubcategory formEditKeep
          paymentMethod := resolvedPaymentMethod formEditKeep
          receivingMethod := resolvedReceivingMethod formEditKeep
          createdAt := if ([entryKeepA, entryKeepB].get ⟨1, by decide⟩).createdAt ≠ ""
            then ([entryKeepA, entryKeepB].get ⟨1, by decide⟩).createdAt
            else clkEditKeep.iso } :=
  ((edit_overwrites_matching_entry clkEditKeep formEditKeep [entryKeepA, entryKeepB]
      "id2" 45 rfl (by decide) (by decide) (by with_unfolding_all rfl)
      (by norm_num)).2.2 1 (by decide)).2 (by decide)

/-- The singleton ledger of the missing-id scenario (its only id is "1"). -/
def entriesMissingTarget : List FinanceEntry :=
  [⟨"1", "Conta de luz", JsNum.fin 5, .expense, "Moradia", none, none, none,
    "2025-10-01T00:00:00.000Z"⟩]

/-- The clock of the missing-id scenario. -/
def clkMissing : Clock := ⟨6000, "2025-10-12T00:00:00.000Z"⟩

/-- A valid edit-mode form input targeting the absent id "999". -/
def formMissing : FormState :=
  ⟨"Edição válida", "10,00", .expense, "Moradia", "", "", "", some "999"⟩

/-- C6 (evaluation of the code at the failing input): saving a valid input in
edit mode with an id that no entry carries leaves the sequence unchanged and
sets no error message at all — the missing id is silently ignored rather than
reported as NotFoundError. -/
theorem update_missing_id_is_silent :
    handleSave clkMissing formMissing entriesMissingTarget =
      ⟨entriesMissingTarget, none⟩ := by
  with_unfolding_all rfl

/-- C9: whenever the form is in edit mode (a truthy editing id) and validation
passes, the save maps over the existing sequence: the result has the same
length and the same ids in the same order, and when no entry matches the
editing id the whole sequence is unchanged. -/
theorem edit_mode_preserves_ids (clk : Clock) (form : FormState)
    (entries : List FinanceEntry) (tid : String) (v : ℚ)
    (hedit : form.editingId = some tid) (htid : tid ≠ "")
    (hdesc : jsTrim form.description ≠ "")
    (hval : parsedAmount form.amount = JsNum.fin v) (hpos : 0 < v) :
    (handleSave clk form entries).entries.length = entries.length ∧
    (handleSave clk form entries).entries.map (fun e => e.id) =
      entries.map (fun e => e.id) ∧
    ((∀ e ∈ entries, e.id ≠ tid) → (handleSave clk form entries).entries = entries) := by
  have hres : handleSave clk form entries =
      ⟨entries.map (fun e =>
          if e.id = tid then applyEdit e (mkBaseData clk form (JsNum.fin v)) else e),
        none⟩ := by
    rw [handleSave_success_shape clk form entries v hdesc hval hpos, hedit]
    exact if_neg htid
  refine ⟨by rw [hres]; exact List.length_map _ _, ?_, fun hnone => ?_⟩
  · rw [hres]
    simp only [List.map_map]
    apply List.map_congr_left
    intro e he
    by_cases hid : e.id = tid
    · simp only [Function.comp_apply, if_pos hid]
      rfl
    · simp only [Function.comp_apply, if_neg hid]
  · rw [hres]
    have hmap : entries.map (fun e =>
        if e.id = tid then applyEdit e (mkBaseData clk form (JsNum.fin v)) else e) =
        entries.map (fun e => e) := by
      apply List.map_congr_left
      intro e he
      rw [if_neg (hnone e he)]
    rw [hmap, List.map_id']

/-- The entry of the edit-mode id-preservation witness. -/
def entryIdKeep : FinanceEntry :=
  ⟨"idA", "Internet", JsNum.fin 80, .expense, "Moradia", none, none, none,
    "2025-08-01T00:00:00.000Z"⟩

/-- The clock of the edit-mode id-preservation witness. -/
def clkIdKeep : Clock := ⟨7000, "2025-10-12T01:00:00.000Z"⟩

/-- A valid edit-mode form input targeting id "idA". -/
def formIdKeep : FormState :=
  ⟨"Internet fibra", "2,00", .expense, "Moradia", "", "", "", some "idA"⟩

/-- Witness for the id-preservation theorem: the edited singleton ledger keeps
its single id. -/
theorem edit_mode_preserves_ids_witness :
    (handleSave clkIdKeep formIdKeep [entryIdKeep]).entries.map (fun e => e.id) =
      [entryIdKeep].map (fun e => e.id) :=
  (edit_mode_preserves_ids clkIdKeep formIdKeep [entryIdKeep] "idA" 2 rfl
      (by decide) (by decide) (by with_unfolding_all rfl) (by norm_num)).2.1
